import Mathlib

/-!
Verification development for the Dexter repository.

Part 1 embeds the React sidebar component `UI.jsx` (slot list helpers and
the bounded server-sent-event buffers) as pure Lean functions over the
component state.

Part 2 embeds the backend core described by the design document
(EventBus, MemoryStore, ClarificationEngine, ConversationOrchestrator);
the backend sources are not part of the repository snapshot, so those
definitions are modelled from the specification text, as their doc
comments state.
-/

/-- A chat message held by a slot (`slot.messages` entries in `UI.jsx`). -/
structure Message where
  role : String
  text : String
deriving DecidableEq

/-- One LLM slot as created in `UI.jsx` (`defaultSlots` / `addSlot`).
The JS field `local` is spelled `localFlag` because `local` is a Lean
keyword; the JS float `temperature` is represented as a rational. -/
structure Slot where
  id : String
  label : String
  enabled : Bool
  localFlag : Bool
  endpoint : String
  model : String
  apiKey : String
  temperature : Rat
  maxTokens : Nat
  messages : List Message
  muted : Bool
deriving DecidableEq

/-- The initial slot list of `UI.jsx` (`defaultSlots`). -/
def defaultSlots : List Slot :=
  [{ id := "slot1", label := "", enabled := true, localFlag := true,
     endpoint := "http://localhost:8000/llm/slot1", model := "", apiKey := "",
     temperature := 1/2, maxTokens := 1024, messages := [], muted := true }]

/-- `addSlot` from `UI.jsx`: the new slot id is derived from the current
list length (`slot${slots.length + 1}`) and the slot is appended. -/
def addSlot (slots : List Slot) : List Slot :=
  let newId := "slot" ++ toString (slots.length + 1)
  slots ++
    [{ id := newId, label := "", enabled := true, localFlag := true,
       endpoint := "http://localhost:8000/llm/" ++ newId, model := "", apiKey := "",
       temperature := 1/2, maxTokens := 1024, messages := [], muted := true }]

/-- `removeSlot` from `UI.jsx`: keep every slot whose id differs. -/
def removeSlot (id : String) (slots : List Slot) : List Slot :=
  slots.filter (fun s => s.id != id)

/-- `toggleMute` from `UI.jsx`: flip `muted` on the slot with the given id. -/
def toggleMute (id : String) (slots : List Slot) : List Slot :=
  slots.map (fun s => if s.id = id then { s with muted := !s.muted } else s)

/-- The patch object passed to `handleSlotChange` in `UI.jsx`; the
configuration inputs patch exactly these six fields. -/
structure SlotPatch where
  label : Option String
  endpoint : Option String
  model : Option String
  apiKey : Option String
  temperature : Option Rat
  maxTokens : Option Nat
deriving DecidableEq

/-- JS object spread `{ ...s, ...patch }` for a `SlotPatch`. -/
def applyPatch (s : Slot) (p : SlotPatch) : Slot :=
  { s with
    label := p.label.getD s.label,
    endpoint := p.endpoint.getD s.endpoint,
    model := p.model.getD s.model,
    apiKey := p.apiKey.getD s.apiKey,
    temperature := p.temperature.getD s.temperature,
    maxTokens := p.maxTokens.getD s.maxTokens }

/-- `handleSlotChange` from `UI.jsx`: patch the slot with the given id. -/
def handleSlotChange (id : String) (p : SlotPatch) (slots : List Slot) : List Slot :=
  slots.map (fun s => if s.id = id then applyPatch s p else s)

/-- One step of the `logs` / `patterns` EventSource handlers in `UI.jsx`:
`setLogs(prev => [...prev.slice(-200), data])`. JS `slice(-200)` keeps the
last 200 entries, which is `drop (length - 200)` with truncated
subtraction. -/
def pushEvent {α : Type} (prev : List α) (d : α) : List α :=
  prev.drop (prev.length - 200) ++ [d]

/-- The `logs` (or `patterns`) state after a sequence of received events,
starting from the initial empty array. -/
def runEvents {α : Type} (events : List α) : List α :=
  events.foldl pushEvent []

/-! ## Backend core, modelled from the specification

The backend sources (EventBus / CollaborationHub, MemoryStore,
ClarificationEngine, ConversationOrchestrator) are referenced by the
repository's README and improvement plan but are not included in the
snapshot, so the definitions below are modelled from the design
document (sections 3, 4 and 7). -/

/-- Modelled from the spec: the fixed topic set of the Event data model
(section 3). -/
inductive Topic
  | queryReceived
  | clarificationRequested
  | clarificationAnswered
  | clarificationsComplete
  | responseReady
  | error
deriving DecidableEq

/-- Modelled from the spec: an Event carries a topic, an opaque payload,
the bus-assigned sequence number, and a timestamp (section 3). -/
structure Event where
  topic : Topic
  payload : String
  sequence : Nat
  timestamp : Nat
deriving DecidableEq

/-- Modelled from the spec: the EventBus state, missing from the
snapshot. It holds the next sequence number to assign and the append-only
log of published events (sections 3 and 4.1). -/
structure EventBus where
  nextSeq : Nat
  log : List Event
deriving DecidableEq

/-- Modelled from the spec: `publish(topic, payload) -> sequence_number`;
the bus assigns the current sequence number and increments it
(section 4.1). -/
def publish (b : EventBus) (t : Topic) (p : String) (now : Nat) : Nat × EventBus :=
  (b.nextSeq, { nextSeq := b.nextSeq + 1, log := b.log ++ [⟨t, p, b.nextSeq, now⟩] })

/-- Sequence numbers handed back by a serialized sequence of `publish`
calls (any interleaving of concurrent publishers is one such
serialization). -/
def runPublishes (b : EventBus) : List (Topic × String × Nat) → List Nat
  | [] => []
  | c :: cs =>
    let r := publish b c.1 c.2.1 c.2.2
    r.1 :: runPublishes r.2 cs

/-- Modelled from the spec: the kind tag of a MemoryRecord (section 3). -/
inductive MemKind
  | shortTerm
  | longTerm
deriving DecidableEq

/-- Modelled from the spec: a MemoryRecord (section 3). -/
structure MemoryRecord where
  id : Nat
  kind : MemKind
  conversationId : String
  role : String
  content : String
  embedding : Option (List Int)
  createdAt : Nat
deriving DecidableEq

/-- Modelled from the spec: insertion into the fixed-capacity,
insertion-ordered short-term buffer — the record is appended and, once
capacity is exceeded, the oldest entries are evicted first (sections 3
and 4.4). The buffer is kept oldest-first. -/
def insertShort (cap : Nat) (buf : List MemoryRecord) (r : MemoryRecord) : List MemoryRecord :=
  let b := buf ++ [r]
  b.drop (b.length - cap)

/-- Modelled from the spec: the MemoryStore state, missing from the
snapshot — per-conversation short-term buffers, the durable long-term
list, an embedding hook for queries, and the availability of the durable
backing store (sections 4.4 and 7). -/
structure MemoryStore where
  capacity : Nat
  shortTerm : List (String × List MemoryRecord)
  longTerm : List MemoryRecord
  embed : String → Option (List Int)
  available : Bool

/-- The short-term buffer of one conversation (empty if none exists). -/
def shortBuf (st : MemoryStore) (cid : String) : List MemoryRecord :=
  match st.shortTerm.find? (fun p => p.1 == cid) with
  | some p => p.2
  | none => []

/-- Update (or create) the short-term buffer of one conversation. -/
def updateShort (st : MemoryStore) (cid : String) (f : List MemoryRecord → List MemoryRecord) :
    List (String × List MemoryRecord) :=
  if st.shortTerm.any (fun p => p.1 == cid) then
    st.shortTerm.map (fun p => if p.1 == cid then (cid, f p.2) else p)
  else
    st.shortTerm ++ [(cid, f [])]

/-- Modelled from the spec: the storage error taxonomy entry signalled
when the durable backing store is unavailable (section 7). -/
inductive StorageError
  | storageUnavailable
deriving DecidableEq

/-- Modelled from the spec: `remember(record)` — short-term records go to
the bounded per-conversation buffer and always succeed in-memory;
long-term records are appended durably, and fail loudly with
`StorageUnavailable` when the durable backing store is unavailable
(sections 4.4 and 7). -/
def remember (st : MemoryStore) (r : MemoryRecord) : Except StorageError MemoryStore :=
  match r.kind with
  | .shortTerm =>
    .ok { st with shortTerm := updateShort st r.conversationId (fun buf => insertShort st.capacity buf r) }
  | .longTerm =>
    if st.available then .ok { st with longTerm := st.longTerm ++ [r] }
    else .error .storageUnavailable

/-- Dot product used as embedding similarity. -/
def dot (a b : List Int) : Int :=
  (a.zip b).foldl (fun acc p => acc + p.1 * p.2) 0

/-- Modelled from the spec: lexical match score — the number of query
words occurring in the record content (section 4.4). -/
def lexScore (query content : String) : Int :=
  ((query.splitOn " ").filter (fun w => (content.splitOn " ").contains w)).length

/-- Modelled from the spec: relevance of a long-term record — similarity
against the stored embedding, or lexical match if no embedding is
available (section 4.4). -/
def score (st : MemoryStore) (query : String) (r : MemoryRecord) : Int :=
  match st.embed query, r.embedding with
  | some qe, some re => dot qe re
  | _, _ => lexScore query r.content

/-- Insert a record into a list kept sorted by descending score, ties
broken by recency (`createdAt`) descending. -/
def rankedInsert (key : MemoryRecord → Int × Nat) (r : MemoryRecord) :
    List MemoryRecord → List MemoryRecord
  | [] => [r]
  | x :: xs =>
    if (key x).1 > (key r).1 ∨ ((key x).1 = (key r).1 ∧ (key x).2 ≥ (key r).2) then
      x :: rankedInsert key r xs
    else r :: x :: xs

/-- Modelled from the spec: the relevance-ranked long-term lookup
(section 4.4). -/
def rankLTM (st : MemoryStore) (query : String) : List MemoryRecord :=
  st.longTerm.foldr (rankedInsert (fun r => (score st query r, r.createdAt))) []

/-- Modelled from the spec: `recall(conversation_id, query, k)` — the live
short-term buffer in exact recency order (most recent first) merged with
the relevance-ranked long-term lookup, short-term entries given priority,
truncated to the top k (section 4.4). Named `recallMemory` because
`recall` is a reserved word in this Lean environment. -/
def recallMemory (st : MemoryStore) (cid query : String) (k : Nat) : List MemoryRecord :=
  ((shortBuf st cid).reverse ++ rankLTM st query).take k

/-- Modelled from the spec: a clarification Question carries
`{id, text, rationale}` (section 4.2). -/
structure Question where
  id : String
  text : String
  rationale : String
deriving DecidableEq

/-- Modelled from the spec: the fallback keyword/slot-extraction
heuristic used by the ClarificationEngine when the model call is
unavailable — it asks about intent slots (destination, date, success
criteria) not covered by the query words or the prior context
(sections 4.2 and 7). -/
def fallbackHeuristic (query : String) (ctx : List String) : List Question :=
  let words := query.splitOn " "
  (["destination", "date", "success criteria"].filter
      (fun w => !(words.contains w) && !(ctx.contains w))).map
    (fun w => ⟨"q_" ++ w, "Please specify the " ++ w ++ ".", "missing " ++ w⟩)

/-- Modelled from the spec: `evaluate(query, context)` of the
ClarificationEngine, missing from the snapshot. Any model call is
wrapped so that its outcome depends only on the query, the context and
the model snapshot; when the call is unavailable (`none`), the fallback
heuristic produces the questions instead (section 4.2). The wrapped
model call of one run is passed in as `modelCall`. -/
def evaluate (modelCall : String → List String → Nat → Option (List Question))
    (query : String) (ctx : List String) (snapshot : Nat) : List Question :=
  match modelCall query ctx snapshot with
  | some qs => qs
  | none => fallbackHeuristic query ctx

/-- Modelled from the spec: conversation status values (section 3). -/
inductive ConvStatus
  | collecting
  | awaitingAnswers
  | clarified
  | failed
deriving DecidableEq

/-- Modelled from the spec: the ConversationState owned by the
Orchestrator (section 3). `collectedAnswers` is the question_id → answer
mapping, kept as an association list in insertion order. -/
structure ConversationState where
  conversationId : String
  status : ConvStatus
  originalQuery : String
  pendingQuestions : List Question
  collectedAnswers : List (String × String)
deriving DecidableEq

/-- Modelled from the spec: a fresh conversation in the initial
`collecting` state (section 4.3). -/
def initialConversation (cid : String) : ConversationState :=
  { conversationId := cid, status := .collecting, originalQuery := "",
    pendingQuestions := [], collectedAnswers := [] }

/-- Modelled from the spec: the inputs driving one conversation's state
machine — the incoming query together with the engine's question set,
`clarification_answered` events, the clarification timeout, and an
external cancel request (sections 4.3 and 5). -/
inductive OrchEvent
  | receiveQuery (query : String) (questions : List Question)
  | answer (questionId : String) (text : String)
  | timeout
  | cancel
deriving DecidableEq

/-- Update an answer mapping with last-write-wins semantics: an existing
question_id key has its value replaced in place, a new key is appended. -/
def updateAnswer (m : List (String × String)) (k v : String) : List (String × String) :=
  if m.any (fun p => p.1 == k) then
    m.map (fun p => if p.1 == k then (k, v) else p)
  else m ++ [(k, v)]

/-- Modelled from the spec: one transition of the ConversationOrchestrator
state machine, missing from the snapshot (section 4.3). Returns the new
state and the topics published during the transition. An answer whose
question_id matches a pending question moves it to `collectedAnswers`
(transitioning to `clarified` when the last one arrives); an answer for
an already-answered question is accepted as a last-write-wins update; an
unknown correlation is rejected with the state unchanged. -/
def step (c : ConversationState) (e : OrchEvent) : ConversationState × List Topic :=
  match e with
  | .receiveQuery q qs =>
    if c.status = .collecting then
      if qs = [] then
        ({ c with status := .clarified, originalQuery := q, pendingQuestions := [] },
         [.queryReceived, .clarificationsComplete])
      else
        ({ c with status := .awaitingAnswers, originalQuery := q, pendingQuestions := qs },
         [.queryReceived, .clarificationRequested])
    else (c, [])
  | .answer qid ans =>
    if c.status = .awaitingAnswers then
      if c.pendingQuestions.any (fun qq => qq.id == qid) then
        let pending := c.pendingQuestions.filter (fun qq => qq.id != qid)
        let collected := updateAnswer c.collectedAnswers qid ans
        if pending = [] then
          ({ c with status := .clarified, pendingQuestions := [], collectedAnswers := collected },
           [.clarificationsComplete])
        else
          ({ c with pendingQuestions := pending, collectedAnswers := collected }, [])
      else if c.collectedAnswers.any (fun p => p.1 == qid) then
        ({ c with collectedAnswers := updateAnswer c.collectedAnswers qid ans }, [])
      else (c, [])
    else (c, [])
  | .timeout =>
    if c.status = .awaitingAnswers then ({ c with status := .failed }, [.error])
    else (c, [])
  | .cancel =>
    if c.status = .clarified ∨ c.status = .failed then (c, [])
    else ({ c with status := .failed }, [.error])

/-- The conversation state after a sequence of orchestrator inputs. -/
def runConv (c : ConversationState) (es : List OrchEvent) : ConversationState :=
  es.foldl (fun s e => (step s e).1) c

/-- A model call that is always unavailable (used to exercise the
fallback path of `evaluate`). -/
def noModel : String → List String → Nat → Option (List Question) :=
  fun _ _ _ => none

/-- Sample short-term records for concrete evaluations. -/
def demoRecordA : MemoryRecord :=
  ⟨1, .shortTerm, "c1", "user", "hello", none, 1⟩

/-- Second sample short-term record. -/
def demoRecordB : MemoryRecord :=
  ⟨2, .shortTerm, "c1", "assistant", "hi", none, 2⟩

/-- Sample long-term record. -/
def demoRecordL : MemoryRecord :=
  ⟨3, .longTerm, "c1", "user", "fact", none, 3⟩

/-- A concrete store with two short-term records and an empty long-term
store. -/
def demoStore : MemoryStore :=
  { capacity := 10, shortTerm := [("c1", [demoRecordA, demoRecordB])],
    longTerm := [], embed := fun _ => none, available := true }

/-- `demoStore` with the durable backing store unavailable. -/
def demoStoreDown : MemoryStore :=
  { demoStore with available := false }

/-- An empty configuration patch. -/
def emptyPatch : SlotPatch :=
  ⟨none, none, none, none, none, none⟩

/-- The single slot contained in `defaultSlots`. -/
def slotOne : Slot :=
  { id := "slot1", label := "", enabled := true, localFlag := true,
    endpoint := "http://localhost:8000/llm/slot1", model := "", apiKey := "",
    temperature := 1/2, maxTokens := 1024, messages := [], muted := true }

/-- Sample clarification question. -/
def demoQuestion : Question :=
  ⟨"q1", "Where to?", "missing destination"⟩

/-- A conversation awaiting answers in which question `q1` has already
been answered (and hence is no longer pending). -/
def demoConv : ConversationState :=
  { conversationId := "c1", status := .awaitingAnswers,
    originalQuery := "book a flight", pendingQuestions := [],
    collectedAnswers := [("q1", "Paris")] }

/-! ## Helper lemmas -/

lemma pushEvent_length {α : Type} (l : List α) (d : α) :
    (pushEvent l d).length = min l.length 200 + 1 := by
  simp [pushEvent]
  omega

lemma pushEvent_suffix {α : Type} (l : List α) (d : α) (big : List α) (h : l <:+ big) :
    pushEvent l d <:+ big ++ [d] := by
  obtain ⟨u, hu⟩ := h
  refine ⟨u ++ l.take (l.length - 200), ?_⟩
  calc (u ++ l.take (l.length - 200)) ++ pushEvent l d
      = u ++ (l.take (l.length - 200) ++ (l.drop (l.length - 200) ++ [d])) := by
        simp [pushEvent, List.append_assoc]
    _ = u ++ ((l.take (l.length - 200) ++ l.drop (l.length - 200)) ++ [d]) := by
        rw [List.append_assoc]
    _ = u ++ (l ++ [d]) := by rw [List.take_append_drop]
    _ = big ++ [d] := by rw [← List.append_assoc, hu]

lemma runEvents_step {α : Type} (es : List α) (e : α) :
    runEvents (es ++ [e]) = pushEvent (runEvents es) e := by
  simp [runEvents]

lemma runEvents_suffix {α : Type} (events : List α) :
    runEvents events <:+ events := by
  induction events using List.reverseRecOn with
  | nil => simp [runEvents]
  | append_singleton es e ih =>
    rw [runEvents_step]
    exact pushEvent_suffix _ e es ih

lemma runEvents_length {α : Type} (events : List α) :
    (runEvents events).length = min events.length 201 := by
  induction events using List.reverseRecOn with
  | nil => simp [runEvents]
  | append_singleton es e ih =>
    rw [runEvents_step, pushEvent_length, ih]
    simp
    omega

lemma runPublishes_lower (b : EventBus) (cs : List (Topic × String × Nat)) :
    ∀ x ∈ runPublishes b cs, b.nextSeq ≤ x := by
  induction cs generalizing b with
  | nil => simp [runPublishes]
  | cons c cs ih =>
    intro x hx
    simp only [runPublishes, publish, List.mem_cons] at hx
    rcases hx with h | h
    · omega
    · have := ih _ x h
      simp at this
      omega

lemma insertShort_length (cap : Nat) (buf : List MemoryRecord) (r : MemoryRecord) :
    (insertShort cap buf r).length = min (buf.length + 1) cap := by
  simp [insertShort]
  omega

lemma foldl_insertShort_le (cap : Nat) (rs : List MemoryRecord) :
    ∀ l : List MemoryRecord, l.length ≤ cap → (rs.foldl (insertShort cap) l).length ≤ cap := by
  induction rs with
  | nil => intro l h; simpa using h
  | cons r rs ih =>
    intro l _
    simp only [List.foldl_cons]
    exact ih _ (by rw [insertShort_length]; omega)

lemma map_fst_update (m : List (String × String)) (k v : String) :
    ((m.map (fun p => if p.1 == k then (k, v) else p)).map Prod.fst) = m.map Prod.fst := by
  induction m with
  | nil => rfl
  | cons p ps ih =>
    by_cases hp : (p.1 == k) = true
    · have hk : p.1 = k := by simpa using hp
      simp only [List.map_cons, if_pos hp, ih]
      simp [hk]
    · simp only [List.map_cons, if_neg hp, ih]

lemma find_update (m : List (String × String)) (k v : String)
    (h : m.any (fun p => p.1 == k) = true) :
    ((m.map (fun p => if p.1 == k then (k, v) else p)).find? (fun p => p.1 == k)) = some (k, v) := by
  induction m with
  | nil => simp at h
  | cons p ps ih =>
    by_cases hp : (p.1 == k) = true
    · simp only [List.map_cons, if_pos hp]
      exact List.find?_cons_of_pos _ (by simp)
    · have hps : ps.any (fun q => q.1 == k) = true := by
        simp only [List.any_cons, hp, Bool.false_or] at h
        exact h
      simp only [List.map_cons, if_neg hp]
      rw [List.find?_cons_of_neg _ (by simpa using hp)]
      exact ih hps

lemma updateAnswer_keys (m : List (String × String)) (k v : String)
    (h : m.any (fun p => p.1 == k) = true) :
    (updateAnswer m k v).map Prod.fst = m.map Prod.fst := by
  simp only [updateAnswer, h, if_true]
  exact map_fst_update m k v

lemma updateAnswer_find (m : List (String × String)) (k v : String)
    (h : m.any (fun p => p.1 == k) = true) :
    (updateAnswer m k v).find? (fun p => p.1 == k) = some (k, v) := by
  simp only [updateAnswer, h, if_true]
  exact find_update m k v h

lemma step_preserves_clarified_inv (c : ConversationState) (e : OrchEvent)
    (h : c.status = ConvStatus.clarified → c.pendingQuestions = []) :
    (step c e).1.status = ConvStatus.clarified → (step c e).1.pendingQuestions = [] := by
  cases e <;> simp only [step] <;> split_ifs <;> simp_all

/-! ## Claim theorems -/

/-- C2: over any serialized sequence of `publish` calls on one EventBus
instance (every interleaving of concurrent publishers is such a
serialization), the returned sequence numbers are strictly increasing
and never reused. -/
theorem publish_seq_strict_mono (b : EventBus) (cs : List (Topic × String × Nat)) :
    (runPublishes b cs).Pairwise (· < ·) ∧ (runPublishes b cs).Nodup := by
  have hmono : (runPublishes b cs).Pairwise (· < ·) := by
    induction cs generalizing b with
    | nil => simp [runPublishes]
    | cons c cs ih =>
      simp only [runPublishes, publish, List.pairwise_cons]
      refine ⟨fun x hx => ?_, ih _⟩
      have hlow := runPublishes_lower _ cs x hx
      simp only at hlow
      omega
  exact ⟨hmono, hmono.imp Nat.ne_of_lt⟩

/-- C7: two calls of the ClarificationEngine's `evaluate` whose wrapped
model calls agree on the given query, context and model snapshot return
the same ordered question sequence, and an unavailable model call makes
the fallback heuristic produce the questions. -/
theorem evaluate_deterministic
    (m1 m2 : String → List String → Nat → Option (List Question))
    (q : String) (ctx : List String) (s : Nat)
    (h : m1 q ctx s = m2 q ctx s) :
    evaluate m1 q ctx s = evaluate m2 q ctx s ∧
    (m1 q ctx s = none → evaluate m1 q ctx s = fallbackHeuristic q ctx) := by
  constructor
  · simp [evaluate, h]
  · intro hn
    simp [evaluate, hn]

/-- Witness for C7 at a concrete query with an unavailable model call. -/
theorem evaluate_deterministic_witness :
    noModel "book a flight" [] 0 = noModel "book a flight" [] 0 ∧
    (evaluate noModel "book a flight" [] 0 = evaluate noModel "book a flight" [] 0 ∧
     (noModel "book a flight" [] 0 = none →
       evaluate noModel "book a flight" [] 0 = fallbackHeuristic "book a flight" [])) :=
  ⟨rfl, evaluate_deterministic noModel noModel "book a flight" [] 0 rfl⟩

/-- C5: when the long-term store is empty, `recall` returns exactly the
short-term buffer contents, most recent first, truncated to k. -/
theorem recall_empty_longTerm (st : MemoryStore) (cid query : String) (k : Nat)
    (h : st.longTerm = []) :
    recallMemory st cid query k = ((shortBuf st cid).reverse).take k := by
  simp [recallMemory, rankLTM, h]

/-- Witness for C5 on a concrete store with an empty long-term store. -/
theorem recall_empty_longTerm_witness :
    demoStore.longTerm = [] ∧
    recallMemory demoStore "c1" "greeting" 5 = ((shortBuf demoStore "c1").reverse).take 5 :=
  ⟨rfl, recall_empty_longTerm demoStore "c1" "greeting" 5 rfl⟩

/-- C6: with the durable backing store unavailable, `remember` for a
long-term record fails loudly with a storage error, while `remember` for
a short-term record still succeeds in-memory. -/
theorem remember_storage_unavailable (st : MemoryStore) (r s : MemoryRecord)
    (hav : st.available = false) (hr : r.kind = MemKind.longTerm)
    (hs : s.kind = MemKind.shortTerm) :
    remember st r = Except.error StorageError.storageUnavailable ∧
    ∃ st2 : MemoryStore, remember st s = Except.ok st2 := by
  constructor
  · simp [remember, hr, hav]
  · exact ⟨{ st with shortTerm := updateShort st s.conversationId (fun buf => insertShort st.capacity buf s) },
           by simp [remember, hs]⟩

/-- Witness for C6 on a concrete unavailable store. -/
theorem remember_storage_unavailable_witness :
    demoStoreDown.available = false ∧ demoRecordL.kind = MemKind.longTerm ∧
    demoRecordA.kind = MemKind.shortTerm ∧
    (remember demoStoreDown demoRecordL = Except.error StorageError.storageUnavailable ∧
     ∃ st2 : MemoryStore, remember demoStoreDown demoRecordA = Except.ok st2) :=
  ⟨rfl, rfl, rfl, remember_storage_unavailable demoStoreDown demoRecordL demoRecordA rfl rfl rfl⟩

/-- C10: `addSlot` derives the new slot's id solely from the current list
length, so slot ids are not unique across add/remove sequences: after
add, add, remove the first slot, add, the list contains the id "slot3"
twice. -/
theorem addSlot_duplicate_ids :
    (∀ slots : List Slot,
      (addSlot slots).map Slot.id
        = slots.map Slot.id ++ ["slot" ++ toString (slots.length + 1)]) ∧
    (addSlot (removeSlot "slot1" (addSlot (addSlot defaultSlots)))).map Slot.id
        = ["slot2", "slot3", "slot3"] ∧
    ¬ ((addSlot (removeSlot "slot1" (addSlot (addSlot defaultSlots)))).map Slot.id).Nodup := by
  have h2 : (addSlot (removeSlot "slot1" (addSlot (addSlot defaultSlots)))).map Slot.id
      = ["slot2", "slot3", "slot3"] := by decide
  refine ⟨fun slots => by simp [addSlot], h2, ?_⟩
  rw [h2]
  decide

/-- C1: for every conversation satisfying the clarified-implies-no-pending
invariant and every sequence of orchestrator inputs (in particular answer
events), the invariant still holds afterwards: whenever the status is
`clarified`, `pending_questions` is empty, so no transition ever moves a
conversation to `clarified` while `pending_questions` is non-empty. -/
theorem clarified_implies_no_pending (c : ConversationState) (es : List OrchEvent)
    (h : c.status = ConvStatus.clarified → c.pendingQuestions = []) :
    (runConv c es).status = ConvStatus.clarified → (runConv c es).pendingQuestions = [] := by
  induction es generalizing c with
  | nil => exact h
  | cons e es ih =>
    simp only [runConv, List.foldl_cons]
    exact ih _ (step_preserves_clarified_inv c e h)

/-- Witness for C1: a fresh conversation driven through a question and its
answer reaches `clarified` with no pending questions. -/
theorem clarified_implies_no_pending_witness :
    ((initialConversation "c1").status = ConvStatus.clarified →
      (initialConversation "c1").pendingQuestions = []) ∧
    (runConv (initialConversation "c1")
        [OrchEvent.receiveQuery "book a flight" [demoQuestion],
         OrchEvent.answer "q1" "Paris"]).pendingQuestions = [] :=
  ⟨by decide,
   clarified_implies_no_pending (initialConversation "c1")
     [OrchEvent.receiveQuery "book a flight" [demoQuestion], OrchEvent.answer "q1" "Paris"]
     (by decide) (by decide)⟩

/-- C3: after any sequence of short-term `remember` insertions the
per-conversation buffer never exceeds the configured capacity, and when
the buffer is full an insertion evicts exactly the oldest entry. -/
theorem shortTerm_capacity_invariant (cap : Nat) (rs : List MemoryRecord) :
    ((rs.foldl (insertShort cap) []).length ≤ cap) ∧
    (∀ (buf : List MemoryRecord) (r : MemoryRecord), buf.length = cap → 0 < cap →
      insertShort cap buf r = buf.tail ++ [r]) := by
  constructor
  · exact foldl_insertShort_le cap rs [] (by simp)
  · intro buf r hlen hpos
    have h1 : buf.length + 1 - cap = 1 := by omega
    have h2 : 1 - buf.length = 0 := by omega
    simp only [insertShort, List.length_append, List.length_cons, List.length_nil]
    rw [List.drop_append_eq_append_drop]
    simp [h1, h2, List.drop_one]

/-- Witness for C3 with capacity 1 and a full buffer. -/
theorem shortTerm_capacity_invariant_witness :
    ([demoRecordA] : List MemoryRecord).length = 1 ∧ 0 < 1 ∧
    insertShort 1 [demoRecordA] demoRecordB = ([demoRecordA] : List MemoryRecord).tail ++ [demoRecordB] :=
  ⟨rfl, by decide,
   (shortTerm_capacity_invariant 1 []).2 [demoRecordA] demoRecordB rfl (by decide)⟩

/-- C4: in state `awaiting_answers`, a further answer for a question_id
already present in `collected_answers` (and no longer pending) is
accepted: the stored answer is overwritten (last write wins), the key set
of `collected_answers` is unchanged (no duplicate entry), the
conversation stays in `awaiting_answers`, and `clarification_requested`
is not published again. -/
theorem reanswer_last_write_wins (c : ConversationState) (qid ans : String)
    (hst : c.status = ConvStatus.awaitingAnswers)
    (hpend : c.pendingQuestions.any (fun qq => qq.id == qid) = false)
    (hcol : c.collectedAnswers.any (fun p => p.1 == qid) = true) :
    ((step c (OrchEvent.answer qid ans)).1.collectedAnswers.map Prod.fst
        = c.collectedAnswers.map Prod.fst) ∧
    ((step c (OrchEvent.answer qid ans)).1.collectedAnswers.find? (fun p => p.1 == qid)
        = some (qid, ans)) ∧
    ((step c (OrchEvent.answer qid ans)).1.status = ConvStatus.awaitingAnswers) ∧
    (Topic.clarificationRequested ∉ (step c (OrchEvent.answer qid ans)).2) := by
  simp only [step, hst, hpend, hcol, if_true, if_false, Bool.false_eq_true, if_pos rfl]
  refine ⟨updateAnswer_keys _ _ _ hcol, updateAnswer_find _ _ _ hcol, by simp [hst], by simp⟩

/-- Witness for C4: re-answering `q1` on a concrete conversation. -/
theorem reanswer_last_write_wins_witness :
    demoConv.status = ConvStatus.awaitingAnswers ∧
    demoConv.pendingQuestions.any (fun qq => qq.id == "q1") = false ∧
    demoConv.collectedAnswers.any (fun p => p.1 == "q1") = true ∧
    (((step demoConv (OrchEvent.answer "q1" "Lyon")).1.collectedAnswers.map Prod.fst
        = demoConv.collectedAnswers.map Prod.fst) ∧
     ((step demoConv (OrchEvent.answer "q1" "Lyon")).1.collectedAnswers.find? (fun p => p.1 == "q1")
        = some ("q1", "Lyon")) ∧
     ((step demoConv (OrchEvent.answer "q1" "Lyon")).1.status = ConvStatus.awaitingAnswers) ∧
     (Topic.clarificationRequested ∉ (step demoConv (OrchEvent.answer "q1" "Lyon")).2)) :=
  ⟨rfl, rfl, rfl, reanswer_last_write_wins demoConv "q1" "Lyon" rfl rfl rfl⟩

/-- C8: after any sequence of server-sent events, the `logs` / `patterns`
state array holds at most 201 entries; it is always a suffix of the
arrival sequence of exactly min(length, 201) entries (the most recent
events in arrival order), and once the 201-entry bound is reached each
new event drops the oldest retained entry first. -/
theorem event_buffer_bounded {α : Type} :
    (∀ events : List α, (runEvents events).length ≤ 201) ∧
    (∀ events : List α,
      runEvents events <:+ events ∧ (runEvents events).length = min events.length 201) ∧
    (∀ (prev : List α) (d : α), prev.length = 201 → pushEvent prev d = prev.tail ++ [d]) := by
  refine ⟨fun events => ?_, fun events => ⟨runEvents_suffix events, runEvents_length events⟩,
    fun prev d h => ?_⟩
  · rw [runEvents_length]
    omega
  · simp [pushEvent, h, List.drop_one]

/-- Witness for C8 at a concrete full buffer of 201 entries. -/
theorem event_buffer_bounded_witness :
    (List.replicate 201 (0 : Nat)).length = 201 ∧
    pushEvent (List.replicate 201 (0 : Nat)) 7 = (List.replicate 201 (0 : Nat)).tail ++ [7] :=
  ⟨by rw [List.length_replicate],
   (@event_buffer_bounded Nat).2.2 (List.replicate 201 0) 7 (by rw [List.length_replicate])⟩

/-- C9: `handleSlotChange X patch` and `toggleMute X` preserve the length
and order of the slot list and leave every slot whose id differs from X
unchanged (pointwise at every position). -/
theorem slot_ops_frame (slots : List Slot) (X : String) (p : SlotPatch) :
    (handleSlotChange X p slots).length = slots.length ∧
    (toggleMute X slots).length = slots.length ∧
    (∀ (i : Nat) (s : Slot), slots.get? i = some s → s.id ≠ X →
      (handleSlotChange X p slots).get? i = some s ∧ (toggleMute X slots).get? i = some s) := by
  refine ⟨by simp [handleSlotChange], by simp [toggleMute], ?_⟩
  intro i s hs hid
  rw [List.get?_eq_getElem?] at hs
  constructor <;>
    simp [handleSlotChange, toggleMute, List.get?_eq_getElem?, List.getElem?_map, hs, hid]

/-- Witness for C9: the default slot is untouched by operations targeting
a different id. -/
theorem slot_ops_frame_witness :
    defaultSlots.get? 0 = some slotOne ∧ slotOne.id ≠ "other" ∧
    ((handleSlotChange "other" emptyPatch defaultSlots).get? 0 = some slotOne ∧
     (toggleMute "other" defaultSlots).get? 0 = some slotOne) :=
  ⟨rfl, by decide,
   (slot_ops_frame defaultSlots "other" emptyPatch).2.2 0 slotOne rfl (by decide)⟩
